import Mathlib

/-!
Shallow embedding of the `app_download_analyzer` analysis core:
theme classification (`themes.go` material), trend analysis
(`internal/analysis/trends.go`), and the time-series / report
entry points (`cmd/app_download_analyzer/timeseries_json.go`,
`web.go`).  Go `float64` values are modelled as rationals; the one
irrational primitive (`math.Sqrt`, used only to turn a variance
into a standard deviation) is threaded through as an explicit
function parameter `sqrtF`, of which the development only ever
uses the fact `sqrtF 0 = 0` (true of `math.Sqrt`).  Go machine
integers are modelled as `Int` (no arithmetic here approaches
64-bit overflow and the spec treats them as mathematical ints).
Go maps are modelled as association lists with unique keys, or as
plain membership tests where only the key set matters.
-/

namespace AppAnalyzer

/-! ### String primitives (model of the Go `strings` package, ASCII folding) -/

/-- Model of `strings.ToLower` on one character (ASCII range). -/
def lowerChar (c : Char) : Char :=
  if 'A' ≤ c ∧ c ≤ 'Z' then Char.ofNat (c.toNat + 32) else c

/-- Model of `strings.ToLower`. -/
def toLowerStr (s : String) : String := ⟨s.data.map lowerChar⟩

/-- Whitespace test used by the model of `strings.TrimSpace`. -/
def isSpaceChar (c : Char) : Bool := c = ' ' || c = '\t' || c = '\n' || c = '\r'

/-- Model of `strings.TrimSpace`: drop leading and trailing whitespace. -/
def trimSpace (s : String) : String :=
  ⟨((s.data.dropWhile isSpaceChar).reverse.dropWhile isSpaceChar).reverse⟩

/-- Model of `strings.Contains value candidate`: `candidate` occurs as a
contiguous substring of `value`. -/
def strContains (value candidate : String) : Bool :=
  (value.data.tails).any (fun t => candidate.data.isPrefixOf t)

/-! ### Theme configuration data model (source: theme config file of the repo) -/

/-- `ThemeRule` from the theme-config source file. -/
structure ThemeRule where
  Theme : String := ""
  GenreIDs : List String := []
  Genres : List String := []
  Keywords : List String := []
deriving Repr, DecidableEq

/-- `ThemeConfig` from the theme-config source file. -/
structure ThemeConfig where
  Rules : List ThemeRule := []
  RiskOn : List String := []
  RiskOff : List String := []
deriving Repr, DecidableEq

/-- `ThemeScore` (theme name with its mean trend score). -/
structure ThemeScore where
  Theme : String := ""
  Score : ℚ := 0
deriving Repr, DecidableEq

/-- `normalizeList` from the source: lower-case and trim each entry, drop
entries that become empty. -/
def normalizeList (items : List String) : List String :=
  (items.map (fun item => toLowerStr (trimSpace item))).filter (fun v => v ≠ "")

/-- `containsAny` from the source: some non-empty candidate occurs as a
substring of `value`. -/
def containsAny (value : String) (candidates : List String) : Bool :=
  candidates.any (fun c => c ≠ "" && strContains value c)

/-- `normalizedRule` from the source.  The Go `map[string]bool` genre-ID set
is modelled by its key list (only membership is ever consulted). -/
structure normalizedRule where
  theme : String := ""
  genreIDs : List String := []
  genres : List String := []
  keywords : List String := []
deriving Repr, DecidableEq

/-- `ThemeInput` from the source. -/
structure ThemeInput where
  Name : String := ""
  Genres : List String := []
  GenreIDs : List String := []
  PrimaryGenre : String := ""
  ItunesGenres : List String := []
deriving Repr, DecidableEq

/-- `ThemeClassifier` from the source. -/
structure ThemeClassifier where
  rules : List normalizedRule := []
deriving Repr, DecidableEq

/-- Normalization of one rule, as performed inside `NewThemeClassifier`:
lower-case the theme, trim each genre ID, normalize genre and keyword lists. -/
def normalizeRule (rule : ThemeRule) : normalizedRule :=
  { theme := toLowerStr rule.Theme
    genreIDs := rule.GenreIDs.map trimSpace
    genres := normalizeList rule.Genres
    keywords := normalizeList rule.Keywords }

/-- `NewThemeClassifier` from the source. -/
def NewThemeClassifier (cfg : ThemeConfig) : ThemeClassifier :=
  { rules := cfg.Rules.map normalizeRule }

/-- The rule loop of `Classify`: first rule matching any of its three
predicates (genre-ID membership, then genre substring, then name keyword)
wins; no match yields the literal `"other"`. -/
def classifyRules (genreIDs genres : List String) (name : String) :
    List normalizedRule → String
  | [] => "other"
  | rule :: rest =>
    if genreIDs.any (fun id => rule.genreIDs.contains id) then rule.theme
    else if genres.any (fun genre => containsAny genre rule.genres) then rule.theme
    else if !rule.keywords.isEmpty && containsAny name rule.keywords then rule.theme
    else classifyRules genreIDs genres name rest

/-- `Classify` from the source: normalize the item's genre sources, trim its
genre IDs, fold its name, then scan the rules in order. -/
def Classify (c : ThemeClassifier) (input : ThemeInput) : String :=
  let genres := normalizeList (input.Genres ++ (input.ItunesGenres ++ [input.PrimaryGenre]))
  let genreIDs := input.GenreIDs.map trimSpace
  let name := toLowerStr input.Name
  classifyRules genreIDs genres name c.rules

/-- Whether a raw configured rule matches an item, with the source's
predicate order (genre-ID exact match, then genre substring, then name
keyword) made explicit. -/
def ruleMatches (rule : ThemeRule) (input : ThemeInput) : Bool :=
  let n := normalizeRule rule
  let genres := normalizeList (input.Genres ++ (input.ItunesGenres ++ [input.PrimaryGenre]))
  let genreIDs := input.GenreIDs.map trimSpace
  let name := toLowerStr input.Name
  genreIDs.any (fun id => n.genreIDs.contains id) ||
    genres.any (fun genre => containsAny genre n.genres) ||
    (!n.keywords.isEmpty && containsAny name n.keywords)

/-! ### Store data model (`internal/store/sqlite.go`) -/

/-- `store.NullInt`: a possibly-absent integer (rating count). -/
structure NullInt where
  Value : Int := 0
  Valid : Bool := false
deriving Repr, DecidableEq

/-- `store.NullFloat`: a possibly-absent number (average rating). -/
structure NullFloat where
  Value : ℚ := 0
  Valid : Bool := false
deriving Repr, DecidableEq

/-- `store.Snapshot`.  `CollectedAt` (a Go `time.Time`) is modelled as unix
seconds. -/
structure Snapshot where
  ID : Int := 0
  CollectedAt : Int := 0
  Country : String := ""
  Chart : String := ""
  Limit : Int := 0
  SourceURL : String := ""
deriving Repr, DecidableEq

/-- `store.ChartItem`. -/
structure ChartItem where
  SnapshotID : Int := 0
  Rank : Int := 0
  AppID : String := ""
  AppName : String := ""
  ArtistName : String := ""
  AppURL : String := ""
  ReleaseDate : String := ""
  Genres : List String := []
  GenreIDs : List String := []
  PrimaryGenre : String := ""
  ItunesGenres : List String := []
  RatingCount : NullInt := {}
  AverageRating : NullFloat := {}
deriving Repr, DecidableEq

/-! ### Trend analysis (`internal/analysis/trends.go`) -/

/-- `analysis.TrendConfig`. -/
structure TrendConfig where
  RankWeight : ℚ := 0
  ReviewWeight : ℚ := 0
  NewEntryBonus : ℚ := 0
deriving Repr, DecidableEq

/-- `analysis.AppTrend`. -/
structure AppTrend where
  AppID : String := ""
  AppName : String := ""
  AppURL : String := ""
  Rank : Int := 0
  RankDelta : Int := 0
  RatingCount : Int := 0
  RatingDelta : Int := 0
  TrendScore : ℚ := 0
  Theme : String := ""
  NewEntry : Bool := false
deriving Repr, DecidableEq

/-- `analysis.TrendResult`.  The Go `map[string]float64` of theme scores is
modelled as an association list with pairwise-distinct keys. -/
structure TrendResult where
  Trends : List AppTrend := []
  ThemeScores : List (String × ℚ) := []
  RiskOnScore : ℚ := 0
  RiskOffScore : ℚ := 0
  RotationIndex : ℚ := 0
deriving Repr, DecidableEq

/-- Lookup in the `prevMap` built by `AnalyzeTrends` from the previous item
list.  A Go map insert loop lets later duplicates overwrite earlier ones, so
the lookup finds the last item with the given identifier. -/
def prevLookup (previousItems : List ChartItem) (id : String) : Option ChartItem :=
  previousItems.reverse.find? (fun item => item.AppID == id)

/-- `computeRatingDelta` from the source; the `(prev, prevOk)` pair is
modelled as an `Option`. -/
def computeRatingDelta (current : ChartItem) (prevOpt : Option ChartItem) : Int :=
  if !current.RatingCount.Valid then 0
  else
    match prevOpt with
    | some prev =>
      if prev.RatingCount.Valid then current.RatingCount.Value - prev.RatingCount.Value
      else current.RatingCount.Value
    | none => current.RatingCount.Value

/-- `meanStd` from the source, over rationals: population mean and, through
`sqrtF` (the model of `math.Sqrt`), population standard deviation;
`(0, 0)` on empty input. -/
def meanStd (sqrtF : ℚ → ℚ) (values : List ℚ) : ℚ × ℚ :=
  if values.length = 0 then (0, 0)
  else
    let m := values.sum / values.length
    let variance := (values.map (fun v => (v - m) * (v - m))).sum / values.length
    (m, sqrtF variance)

/-- `zscore` from the source: 0 when the standard deviation is 0. -/
def zscore (value m std : ℚ) : ℚ := if std = 0 then 0 else (value - m) / std

/-- The per-item record built in the first loop of `AnalyzeTrends` (before
scores are assigned): previous rank defaults to `latest.Limit + 1` when the
item is absent from the previous lookup. -/
def buildTrend (latest : Snapshot) (previousItems : List ChartItem)
    (classifier : ThemeClassifier) (item : ChartItem) : AppTrend :=
  let prevOpt := prevLookup previousItems item.AppID
  let prevRank : Int :=
    match prevOpt with
    | some prev => prev.Rank
    | none => latest.Limit + 1
  { AppID := item.AppID
    AppName := item.AppName
    AppURL := item.AppURL
    Rank := item.Rank
    RankDelta := prevRank - item.Rank
    RatingCount := item.RatingCount.Value
    RatingDelta := computeRatingDelta item prevOpt
    TrendScore := 0
    Theme := Classify classifier
      { Name := item.AppName
        Genres := item.Genres
        GenreIDs := item.GenreIDs
        PrimaryGenre := item.PrimaryGenre
        ItunesGenres := item.ItunesGenres }
    NewEntry := prevOpt.isNone }

/-- The unsorted, unscored per-item records of `AnalyzeTrends`. -/
def preTrends (latest : Snapshot) (latestItems previousItems : List ChartItem)
    (themes : ThemeConfig) : List AppTrend :=
  latestItems.map (buildTrend latest previousItems (NewThemeClassifier themes))

/-- The second loop of `AnalyzeTrends`: assign the weighted z-score, plus the
new-entry bonus for items absent from the previous snapshot. -/
def scoreTrend (cfg : TrendConfig) (rankMean rankStd reviewMean reviewStd : ℚ)
    (t : AppTrend) : AppTrend :=
  let rankZ := zscore (t.RankDelta : ℚ) rankMean rankStd
  let reviewZ := zscore (t.RatingDelta : ℚ) reviewMean reviewStd
  let score := cfg.RankWeight * rankZ + cfg.ReviewWeight * reviewZ
  { t with TrendScore := if t.NewEntry then score + cfg.NewEntryBonus else score }

/-- The `(rankMean, rankStd)` pair of `AnalyzeTrends`: population statistics
of the rank-delta series. -/
def rankStats (sqrtF : ℚ → ℚ) (latest : Snapshot)
    (latestItems previousItems : List ChartItem) (themes : ThemeConfig) : ℚ × ℚ :=
  meanStd sqrtF ((preTrends latest latestItems previousItems themes).map
    (fun t => (t.RankDelta : ℚ)))

/-- The `(reviewMean, reviewStd)` pair of `AnalyzeTrends`: population
statistics of the rating-delta series. -/
def reviewStats (sqrtF : ℚ → ℚ) (latest : Snapshot)
    (latestItems previousItems : List ChartItem) (themes : ThemeConfig) : ℚ × ℚ :=
  meanStd sqrtF ((preTrends latest latestItems previousItems themes).map
    (fun t => (t.RatingDelta : ℚ)))

/-- The scored (still unsorted) trend list of `AnalyzeTrends`. -/
def scoredTrends (sqrtF : ℚ → ℚ) (latest : Snapshot)
    (latestItems previousItems : List ChartItem) (cfg : TrendConfig)
    (themes : ThemeConfig) : List AppTrend :=
  let trends := preTrends latest latestItems previousItems themes
  let rankMS := rankStats sqrtF latest latestItems previousItems themes
  let reviewMS := reviewStats sqrtF latest latestItems previousItems themes
  trends.map (scoreTrend cfg rankMS.1 rankMS.2 reviewMS.1 reviewMS.2)

/-! ### The exchange sort used by `sortTrends` and `sortThemeScores`.

Both Go sorts are the same double-index loop (`if out[j] > out[i] then
swap`), differing only in the compared field; it is modelled once,
parametrised by the strict comparison.  `selectStep` is one pass of the
inner loop: it returns the element left at position `i` after the pass
together with the perturbed remainder.  The outer loop is structural
recursion on a fuel equal to the list length (each pass keeps the length of
the remainder). -/

def selectStep (better : α → α → Bool) : α → List α → α × List α
  | h, [] => (h, [])
  | h, x :: xs =>
    if better x h then
      let p := selectStep better x xs
      (p.1, h :: p.2)
    else
      let p := selectStep better h xs
      (p.1, x :: p.2)

/-- Fuel-indexed outer loop of the exchange sort. -/
def exchSortFuel (better : α → α → Bool) : Nat → List α → List α
  | _, [] => []
  | 0, l => l
  | n + 1, h :: t =>
    let p := selectStep better h t
    p.1 :: exchSortFuel better n p.2

/-- The exchange sort of the source (descending with respect to `better`). -/
def exchSort (better : α → α → Bool) (l : List α) : List α :=
  exchSortFuel better l.length l

/-- Strict comparison by a rational key (the `out[j].f > out[i].f` test). -/
def gtBy (key : α → ℚ) (a b : α) : Bool := key b < key a

/-- `sortTrends` from the source: exchange sort by trend score, descending. -/
def sortTrends (items : List AppTrend) : List AppTrend :=
  exchSort (gtBy AppTrend.TrendScore) items

/-- Keep the first occurrence of every element (the `seen` map plus `append`
idiom used when Go code builds a deduplicated key list). -/
def dedupFirstAux (seen : List String) : List String → List String
  | [] => []
  | x :: xs =>
    if x ∈ seen then dedupFirstAux seen xs else x :: dedupFirstAux (x :: seen) xs

/-- First-occurrence deduplication. -/
def dedupFirst (l : List String) : List String := dedupFirstAux [] l

/-- The arithmetic mean of the trend scores of the items assigned to one
theme (the `themeScores` sum/count maps of `AnalyzeTrends`, divided out). -/
def themeMean (trends : List AppTrend) (theme : String) : ℚ :=
  let scores := (trends.filter (fun t => t.Theme == theme)).map (fun t => t.TrendScore)
  scores.sum / scores.length

/-- The theme-score map of `AnalyzeTrends`: one key per theme occurring in
the trend list, mapped to the mean trend score of that theme. -/
def themeScoresOf (trends : List AppTrend) : List (String × ℚ) :=
  (dedupFirst (trends.map (fun t => t.Theme))).map (fun theme => (theme, themeMean trends theme))

/-- `averageThemes` from the source: 0 for an empty group; otherwise sum and
count the group themes found in the score map (the Go loop accumulating
`sum` and `count` is modelled by `filterMap`), and 0 again when none is
found. -/
def averageThemes (scores : List (String × ℚ)) (themes : List String) : ℚ :=
  if themes.length = 0 then 0
  else
    let found := themes.filterMap (fun theme => scores.lookup theme)
    if found.length = 0 then 0 else found.sum / found.length

/-- `AnalyzeTrends` from the source.  The unused `previous` snapshot
parameter is kept to mirror the Go signature. -/
def AnalyzeTrends (sqrtF : ℚ → ℚ) (latest previous : Snapshot)
    (latestItems previousItems : List ChartItem) (cfg : TrendConfig)
    (themes : ThemeConfig) : TrendResult :=
  let sorted := sortTrends (scoredTrends sqrtF latest latestItems previousItems cfg themes)
  let themeScores := themeScoresOf sorted
  let riskOnScore := averageThemes themeScores themes.RiskOn
  let riskOffScore := averageThemes themeScores themes.RiskOff
  { Trends := sorted
    ThemeScores := themeScores
    RiskOnScore := riskOnScore
    RiskOffScore := riskOffScore
    RotationIndex := riskOnScore - riskOffScore }

/-! ### Theme-config loading (`LoadThemeConfig` / `defaultThemeConfig`) -/

/-- `defaultThemeConfig` from the source: the built-in ten-rule set. -/
def defaultThemeConfig : ThemeConfig :=
  { Rules :=
      [ { Theme := "games", GenreIDs := ["6014"], Genres := ["games"] }
      , { Theme := "entertainment", GenreIDs := ["6016", "6011", "6008", "6005"],
          Genres := ["entertainment", "music", "photo", "social networking"] }
      , { Theme := "commerce", GenreIDs := ["6024", "6023"],
          Genres := ["shopping", "food", "drink", "food & drink"] }
      , { Theme := "travel", GenreIDs := ["6003", "6010"], Genres := ["travel", "navigation"] }
      , { Theme := "finance", GenreIDs := ["6015"], Genres := ["finance"] }
      , { Theme := "productivity", GenreIDs := ["6007", "6002", "6000"],
          Genres := ["productivity", "utilities", "business"] }
      , { Theme := "education", GenreIDs := ["6017"], Genres := ["education"] }
      , { Theme := "health", GenreIDs := ["6013", "6018"],
          Genres := ["health", "fitness", "medical"] }
      , { Theme := "news", GenreIDs := ["6009", "6006", "6001"],
          Genres := ["news", "reference", "weather"] }
      , { Theme := "sports", GenreIDs := ["6004"], Genres := ["sports"] } ]
    RiskOn := ["games", "entertainment", "commerce", "travel", "sports"]
    RiskOff := ["productivity", "education", "health", "finance", "news"] }

/-- The file-system view seen by `LoadThemeConfig`: the file is absent, the
stat fails for another reason, the read fails, or the file is read and
handed to the JSON decoder (an external collaborator, modelled by its
`Except` outcome). -/
inductive ThemeFileState where
  | absent : ThemeFileState
  | statFailure (e : String) : ThemeFileState
  | readFailure (e : String) : ThemeFileState
  | contents (decoded : Except String ThemeConfig) : ThemeFileState
deriving Repr

/-- `LoadThemeConfig` from the source: absence falls back to the default
configuration, any other stat/read/decode failure propagates, and a decoded
configuration with an empty rule list is replaced by the default. -/
def LoadThemeConfig : ThemeFileState → Except String ThemeConfig
  | .absent => .ok defaultThemeConfig
  | .statFailure e => .error e
  | .readFailure e => .error e
  | .contents (.error e) => .error e
  | .contents (.ok cfg) => if cfg.Rules.length = 0 then .ok defaultThemeConfig else .ok cfg

/-! ### Time-series aggregation (`cmd/app_download_analyzer/timeseries_json.go`) -/

/-- The calendar-day key of `groupSnapshotsByDate`: the timestamp shifted
into the reference zone (`Asia/Seoul` is a fixed `+9h` offset; the UTC
fallback is offset `0`) and truncated to a day number — the model of
`CollectedAt.In(loc).Format("2006-01-02")`. -/
def dayKey (offset : Int) (s : Snapshot) : Int := (s.CollectedAt + offset).fdiv 86400

/-- The `dateIndex` map of `groupSnapshotsByDate`: forward iteration with
overwrites leaves, for each key, the greatest index holding it. -/
def dateIndexAux (k : Int) : Nat → List Int → Option Nat → Option Nat
  | _, [], acc => acc
  | i, x :: xs, acc => dateIndexAux k (i + 1) xs (if x = k then some i else acc)

/-- Greatest index of `keys` carrying the key `k`, if any. -/
def dateIndexOf (keys : List Int) (k : Int) : Option Nat := dateIndexAux k 0 keys none

/-- The second loop of `groupSnapshotsByDate`: keep position `i` exactly
when the `dateIndex` map points back at it.  (The source also carries a
`seen` set, but at most one index can satisfy `dateIndex[key] == i`, so that
check never fires and is omitted from the model.) -/
def groupAux (offset : Int) (keys : List Int) :
    Nat → List (Snapshot × List ChartItem) → List (Snapshot × List ChartItem)
  | _, [] => []
  | i, p :: ps =>
    if dateIndexOf keys (dayKey offset p.1) = some i
    then p :: groupAux offset keys (i + 1) ps
    else groupAux offset keys (i + 1) ps

/-- `groupSnapshotsByDate` from the source, over parallel snapshot/item
lists packaged as pairs. -/
def groupSnapshotsByDate (offset : Int) (pairs : List (Snapshot × List ChartItem)) :
    List (Snapshot × List ChartItem) :=
  groupAux offset (pairs.map (fun p => dayKey offset p.1)) 0 pairs

/-- `uniqueThemes` from the source: `"other"` plus the non-empty configured
rule themes, first occurrence kept, then sorted ascending. -/
def uniqueThemes (cfg : ThemeConfig) : List String :=
  List.insertionSort (fun a b => a ≤ b)
    (dedupFirst ("other" :: (cfg.Rules.map (fun r => r.Theme)).filter (fun t => t ≠ "")))

/-- The previous-day sequence of the transition loop of `computeTimeSeries`:
day 0 pairs with itself, day `i > 0` with day `i - 1`. -/
def chainPrev : List α → List α
  | [] => []
  | h :: t => h :: (h :: t).dropLast

/-- The per-day `TrendResult` sequence of `computeTimeSeries` over the
day-bucketed snapshot list. -/
def dayResults (sqrtF : ℚ → ℚ) (cfg : TrendConfig) (themes : ThemeConfig)
    (gs : List (Snapshot × List ChartItem)) : List TrendResult :=
  (gs.zip (chainPrev gs)).map
    (fun pr => AnalyzeTrends sqrtF pr.1.1 pr.2.1 pr.1.2 pr.2.2 cfg themes)

/-- The per-theme series assembly of `computeTimeSeries`: for each known
theme name, one value per day, read from the day's theme-score map with the
Go zero default for a missing key. -/
def themeSeries (themeNames : List String) (results : List TrendResult) :
    List (String × List ℚ) :=
  themeNames.map (fun theme =>
    (theme, results.map (fun r => (r.ThemeScores.lookup theme).getD 0)))

/-- `timeSeriesTopApp` from the source (`*int` modelled as `Option Int`). -/
structure timeSeriesTopApp where
  AppID : String := ""
  AppName : String := ""
  AppURL : String := ""
  Ranks : List (Option Int) := []
  RatingCounts : List (Option Int) := []
deriving Repr, DecidableEq

/-- Lookup in a per-day item map keyed by app identifier (map build loop:
last duplicate wins). -/
def itemLookup (items : List ChartItem) (id : String) : Option ChartItem :=
  items.reverse.find? (fun item => item.AppID == id)

/-- `buildTopApps` from the source: up to `topN` items of the most recent
day, each with sparse rank and rating-count series over all retained days. -/
def buildTopApps (snapshotItems : List (List ChartItem)) (topN : Int) :
    List timeSeriesTopApp :=
  match snapshotItems.getLast? with
  | none => []
  | some latestItems =>
    let n : Int := if topN > (latestItems.length : Int) then (latestItems.length : Int) else topN
    (latestItems.take n.toNat).map (fun item =>
      { AppID := item.AppID
        AppName := item.AppName
        AppURL := item.AppURL
        Ranks := snapshotItems.map (fun items => (itemLookup items item.AppID).map (fun it => it.Rank))
        RatingCounts := snapshotItems.map (fun items =>
          (itemLookup items item.AppID).bind (fun it =>
            if it.RatingCount.Valid then some it.RatingCount.Value else none)) })

/-- `timeSeriesPayload` from the source (meta fields inlined; dates kept as
raw timestamps, RFC3339 rendering being presentation-only). -/
structure timeSeriesPayload where
  Country : String := ""
  Chart : String := ""
  Limit : Int := 0
  Dates : List Int := []
  RotationIndex : List ℚ := []
  RiskOnScore : List ℚ := []
  RiskOffScore : List ℚ := []
  ThemeScores : List (String × List ℚ) := []
  TopApps : List timeSeriesTopApp := []
deriving Repr, DecidableEq

/-- `computeTimeSeries` from the source.  The store collaborator's answers
(the ordered snapshot list and each snapshot's items) and the
`LoadThemeConfig` outcome are explicit inputs; the only error raised by the
function's own logic is `"no snapshots found"` on an empty snapshot list. -/
def computeTimeSeries (offset : Int) (sqrtF : ℚ → ℚ) (country chart : String)
    (snapshots : List Snapshot) (snapshotItems : List (List ChartItem))
    (themeLoad : Except String ThemeConfig) (cfg : TrendConfig) (topN : Int) :
    Except String timeSeriesPayload :=
  if snapshots.length = 0 then .error "no snapshots found"
  else
    match themeLoad with
    | .error e => .error e
    | .ok themeConfig =>
      let themeNames := uniqueThemes themeConfig
      let grouped := groupSnapshotsByDate offset (snapshots.zip snapshotItems)
      let results := dayResults sqrtF cfg themeConfig grouped
      .ok
        { Country := country
          Chart := chart
          Limit := ((grouped.getLast?).map (fun p => p.1.Limit)).getD 0
          Dates := grouped.map (fun p => p.1.CollectedAt)
          RotationIndex := results.map (fun r => r.RotationIndex)
          RiskOnScore := results.map (fun r => r.RiskOnScore)
          RiskOffScore := results.map (fun r => r.RiskOffScore)
          ThemeScores := themeSeries themeNames results
          TopApps := buildTopApps (grouped.map (fun p => p.2)) topN }

/-! ### Report computation (`cmd/app_download_analyzer/web.go`) -/

/-- The error text of `sql.ErrNoRows`, the sentinel tested by
`computeReport`. -/
def errNoRows : String := "sql: no rows in result set"

/-- `store.GetLatestSnapshot`: the stored snapshot with the greatest
collection time (SQL `ORDER BY collected_at DESC LIMIT 1`); `sql.ErrNoRows`
when none exists. -/
def GetLatestSnapshot (snaps : List Snapshot) : Except String Snapshot :=
  match snaps with
  | [] => .error errNoRows
  | s :: rest =>
    .ok (rest.foldl (fun best x => if best.CollectedAt < x.CollectedAt then x else best) s)

/-- `store.GetPreviousSnapshot`: among snapshots collected strictly before
`before`, the one with the greatest collection time; `sql.ErrNoRows` when
none exists. -/
def GetPreviousSnapshot (snaps : List Snapshot) (before : Int) : Except String Snapshot :=
  GetLatestSnapshot (snaps.filter (fun s => s.CollectedAt < before))

/-- `SortThemeScores` from the source: the theme-score map flattened to a
list and exchange-sorted by score, descending. -/
def SortThemeScores (scores : List (String × ℚ)) : List ThemeScore :=
  exchSort (gtBy ThemeScore.Score)
    (scores.map (fun p => { Theme := p.1, Score := p.2 : ThemeScore }))

/-- `reportPayload` from the source (the wall-clock `GeneratedAt` stamp is
presentation-only and omitted). -/
structure reportPayload where
  Latest : Snapshot := {}
  Previous : Snapshot := {}
  Trends : List AppTrend := []
  ThemeScores : List ThemeScore := []
  RiskOnScore : ℚ := 0
  RiskOffScore : ℚ := 0
  RotationIndex : ℚ := 0
deriving Repr, DecidableEq

/-- `computeReport` from the source: latest snapshot, then the one before
it — a missing predecessor (`sql.ErrNoRows`) becomes the
`"need at least two snapshots for report"` error — then one
`AnalyzeTrends` run over the pair.  `itemsOf` models
`store.GetSnapshotItems`. -/
def computeReport (sqrtF : ℚ → ℚ) (snaps : List Snapshot)
    (itemsOf : Int → List ChartItem) (themeLoad : Except String ThemeConfig)
    (cfg : TrendConfig) : Except String reportPayload :=
  match GetLatestSnapshot snaps with
  | .error e => .error e
  | .ok latest =>
    match GetPreviousSnapshot snaps latest.CollectedAt with
    | .error e =>
      if e = errNoRows then .error "need at least two snapshots for report" else .error e
    | .ok previous =>
      match themeLoad with
      | .error e => .error e
      | .ok themeConfig =>
        let result := AnalyzeTrends sqrtF latest previous (itemsOf latest.ID)
          (itemsOf previous.ID) cfg themeConfig
        .ok
          { Latest := latest
            Previous := previous
            Trends := result.Trends
            ThemeScores := SortThemeScores result.ThemeScores
            RiskOnScore := result.RiskOnScore
            RiskOffScore := result.RiskOffScore
            RotationIndex := result.RotationIndex }

/-! ### Specification-side reference definitions (used only in theorem
statements, to state the properties the claims assert about the source
functions above) -/

/-- The group score as the spec phrases it: restrict the configured group
list to the themes present as keys in the score map, and take the
arithmetic mean of their looked-up scores (0 when nothing qualifies). -/
def specGroupScore (scores : List (String × ℚ)) (group : List String) : ℚ :=
  let present := group.filter (fun t => (scores.lookup t).isSome)
  if present.length = 0 then 0
  else (present.filterMap (fun t => scores.lookup t)).sum / present.length

/-- Position `i` (holding the pair `p`) is the last position of its
calendar-day key: no later position of `pairs` carries the same key. -/
def lastOfItsDay (offset : Int) (pairs : List (Snapshot × List ChartItem))
    (i : Nat) (p : Snapshot × List ChartItem) : Prop :=
  ∀ j (hj : j < pairs.length), i < j →
    dayKey offset (pairs.get ⟨j, hj⟩).1 ≠ dayKey offset p.1

instance (offset : Int) (pairs : List (Snapshot × List ChartItem))
    (i : Nat) (p : Snapshot × List ChartItem) :
    Decidable (lastOfItsDay offset pairs i p) := by
  unfold lastOfItsDay; infer_instance

/-- The day-bucketing rule as the spec phrases it: walk the list with its
positions and keep exactly the positions that are the last of their
calendar day. -/
def keepLastAux (offset : Int) (pairs : List (Snapshot × List ChartItem)) :
    Nat → List (Snapshot × List ChartItem) → List (Snapshot × List ChartItem)
  | _, [] => []
  | i, p :: ps =>
    if lastOfItsDay offset pairs i p then p :: keepLastAux offset pairs (i + 1) ps
    else keepLastAux offset pairs (i + 1) ps

/-- Keep, for each calendar-day key, only the pair at the greatest index. -/
def keepLastPerDay (offset : Int) (pairs : List (Snapshot × List ChartItem)) :
    List (Snapshot × List ChartItem) :=
  keepLastAux offset pairs 0 pairs

/-! ### Sample inputs (used by witnesses) -/

/-- A sample snapshot. -/
def sampleSnapshot : Snapshot :=
  { ID := 1, CollectedAt := 1700000000, Country := "kr", Chart := "top-free",
    Limit := 2, SourceURL := "" }

/-- A sample chart item. -/
def sampleItemA : ChartItem :=
  { SnapshotID := 1, Rank := 1, AppID := "app.a", AppName := "Alpha",
    Genres := ["Games"], GenreIDs := ["6014"] }

/-- A second sample chart item, with a rating count. -/
def sampleItemB : ChartItem :=
  { SnapshotID := 1, Rank := 2, AppID := "app.b", AppName := "Beta",
    Genres := ["Finance"], GenreIDs := ["6015"],
    RatingCount := { Value := 50, Valid := true } }

/-- A sample trend configuration. -/
def sampleConfig : TrendConfig :=
  { RankWeight := 1, ReviewWeight := 1, NewEntryBonus := 1 / 2 }

/-! ### Helper lemmas -/

theorem toNat_ofNat_valid {m : Nat} (h : m.isValidChar) : (Char.ofNat m).toNat = m := by
  simp [Char.ofNat, h, Char.ofNatAux, Char.toNat, UInt32.toNat]

theorem char_le_iff {a b : Char} : a ≤ b ↔ a.toNat ≤ b.toNat := by
  rw [Char.le_def, UInt32.le_def, BitVec.le_def]; rfl

theorem lowerChar_not_upper (c : Char) : ¬('A' ≤ lowerChar c ∧ lowerChar c ≤ 'Z') := by
  unfold lowerChar
  split
  · rename_i h
    obtain ⟨h1, h2⟩ := h
    have hc1 : 65 ≤ c.toNat := char_le_iff.1 h1
    have hc2 : c.toNat ≤ 90 := char_le_iff.1 h2
    have hv : (c.toNat + 32).isValidChar := Or.inl (by omega)
    have ht : (Char.ofNat (c.toNat + 32)).toNat = c.toNat + 32 := toNat_ofNat_valid hv
    rintro ⟨-, hz⟩
    have h90 := char_le_iff.1 hz
    rw [ht] at h90
    have hZ : ('Z').toNat = 90 := rfl
    omega
  · rename_i h; exact h

theorem toLowerStr_not_upper (s : String) :
    ∀ c ∈ (toLowerStr s).data, ¬('A' ≤ c ∧ c ≤ 'Z') := by
  intro c hc
  simp only [toLowerStr, List.mem_map] at hc
  obtain ⟨a, -, rfl⟩ := hc
  exact lowerChar_not_upper a

theorem classifyRules_eq_find (ids gens : List String) (nm : String) :
    ∀ rules : List normalizedRule,
      classifyRules ids gens nm rules =
        ((rules.find? (fun n =>
            ids.any (fun id => n.genreIDs.contains id) ||
            gens.any (fun genre => containsAny genre n.genres) ||
            (!n.keywords.isEmpty && containsAny nm n.keywords))).map
          (fun n => n.theme)).getD "other"
  | [] => rfl
  | rule :: rest => by
    rw [classifyRules, List.find?]
    cases h1 : ids.any (fun id => rule.genreIDs.contains id) with
    | true => simp [h1]
    | false =>
      cases h2 : gens.any (fun genre => containsAny genre rule.genres) with
      | true => simp [h1, h2]
      | false =>
        cases h3 : (!rule.keywords.isEmpty && containsAny nm rule.keywords) with
        | true => simp [h1, h2, h3]
        | false => simp [h1, h2, h3, classifyRules_eq_find ids gens nm rest]

theorem classifyRules_shape (ids gens : List String) (nm : String) :
    ∀ rules : List normalizedRule,
      classifyRules ids gens nm rules = "other" ∨
        ∃ n ∈ rules, classifyRules ids gens nm rules = n.theme
  | [] => Or.inl rfl
  | rule :: rest => by
    rw [classifyRules]
    split
    · exact Or.inr ⟨rule, List.mem_cons_self rule rest, rfl⟩
    · split
      · exact Or.inr ⟨rule, List.mem_cons_self rule rest, rfl⟩
      · split
        · exact Or.inr ⟨rule, List.mem_cons_self rule rest, rfl⟩
        · rcases classifyRules_shape ids gens nm rest with h | ⟨n, hn, h⟩
          · exact Or.inl h
          · exact Or.inr ⟨n, List.mem_cons_of_mem rule hn, h⟩

theorem classify_shape (cfg : ThemeConfig) (input : ThemeInput) :
    Classify (NewThemeClassifier cfg) input = "other" ∨
      ∃ r ∈ cfg.Rules, Classify (NewThemeClassifier cfg) input = toLowerStr r.Theme := by
  have h := classifyRules_shape
    (input.GenreIDs.map trimSpace)
    (normalizeList (input.Genres ++ (input.ItunesGenres ++ [input.PrimaryGenre])))
    (toLowerStr input.Name) (cfg.Rules.map normalizeRule)
  rcases h with h | ⟨n, hn, h⟩
  · exact Or.inl h
  · obtain ⟨r, hr, rfl⟩ := List.mem_map.1 hn
    exact Or.inr ⟨r, hr, h⟩

theorem selectStep_length (better : α → α → Bool) (h : α) (l : List α) :
    (selectStep better h l).2.length = l.length := by
  induction l generalizing h with
  | nil => rfl
  | cons x xs ih => simp only [selectStep]; split <;> simp [ih]

theorem selectStep_perm (better : α → α → Bool) (h : α) (l : List α) :
    ((selectStep better h l).1 :: (selectStep better h l).2).Perm (h :: l) := by
  induction l generalizing h with
  | nil => exact List.Perm.refl _
  | cons x xs ih =>
    simp only [selectStep]; split
    · exact (List.Perm.swap h _ _).trans ((ih x).cons h)
    · exact ((List.Perm.swap x _ _).trans ((ih h).cons x)).trans (List.Perm.swap h x xs)

theorem selectStep_max (key : α → ℚ) (h : α) (l : List α) :
    key h ≤ key (selectStep (gtBy key) h l).1 ∧
    ∀ y ∈ (selectStep (gtBy key) h l).2, key y ≤ key (selectStep (gtBy key) h l).1 := by
  induction l generalizing h with
  | nil => simp [selectStep]
  | cons x xs ih =>
    simp only [selectStep]; split
    · rename_i hb
      have hb' : key h < key x := by simpa [gtBy] using hb
      obtain ⟨ih1, ih2⟩ := ih x
      refine ⟨le_of_lt (lt_of_lt_of_le hb' ih1), ?_⟩
      intro y hy
      rcases List.mem_cons.1 hy with rfl | hy'
      · exact le_of_lt (lt_of_lt_of_le hb' ih1)
      · exact ih2 y hy'
    · rename_i hb
      have hb' : key x ≤ key h := le_of_not_lt (by simpa [gtBy] using hb)
      obtain ⟨ih1, ih2⟩ := ih h
      refine ⟨ih1, ?_⟩
      intro y hy
      rcases List.mem_cons.1 hy with rfl | hy'
      · exact le_trans hb' ih1
      · exact ih2 y hy'

theorem exchSort_nil (better : α → α → Bool) : exchSort better [] = [] := rfl

theorem exchSort_cons (better : α → α → Bool) (h : α) (t : List α) :
    exchSort better (h :: t) =
      (selectStep better h t).1 :: exchSort better (selectStep better h t).2 := by
  show exchSortFuel better (h :: t).length (h :: t) = _
  rw [List.length_cons]
  rw [exchSortFuel]
  rw [exchSort, selectStep_length]

theorem exchSort_perm_aux (better : α → α → Bool) :
    ∀ (n : Nat) (l : List α), l.length = n → (exchSort better l).Perm l
  | 0, [], _ => List.Perm.refl _
  | 0, _ :: _, h => by simp at h
  | _ + 1, [], h => by simp at h
  | n + 1, x :: xs, h => by
    rw [exchSort_cons]
    have hl : (selectStep better x xs).2.length = n := by
      rw [selectStep_length]; simpa using h
    exact ((exchSort_perm_aux better n _ hl).cons _).trans (selectStep_perm better x xs)

theorem exchSort_perm (better : α → α → Bool) (l : List α) :
    (exchSort better l).Perm l :=
  exchSort_perm_aux better l.length l rfl

theorem exchSort_sorted_aux (key : α → ℚ) :
    ∀ (n : Nat) (l : List α), l.length = n →
      List.Sorted (fun a b => key b ≤ key a) (exchSort (gtBy key) l)
  | 0, [], _ => by simp [exchSort_nil]
  | 0, _ :: _, h => by simp at h
  | _ + 1, [], h => by simp at h
  | n + 1, x :: xs, h => by
    rw [exchSort_cons, List.sorted_cons]
    have hl : (selectStep (gtBy key) x xs).2.length = n := by
      rw [selectStep_length]; simpa using h
    refine ⟨?_, exchSort_sorted_aux key n _ hl⟩
    intro b hb
    have hmem : b ∈ (selectStep (gtBy key) x xs).2 :=
      (exchSort_perm (gtBy key) _).mem_iff.1 hb
    exact (selectStep_max key x xs).2 b hmem

theorem exchSort_sorted (key : α → ℚ) (l : List α) :
    List.Sorted (fun a b => key b ≤ key a) (exchSort (gtBy key) l) :=
  exchSort_sorted_aux key l.length l rfl


theorem filterMap_lookup_eq_filter (scores : List (String × ℚ)) :
    ∀ group : List String,
      group.filterMap (fun t => scores.lookup t) =
        (group.filter (fun t => (scores.lookup t).isSome)).filterMap
          (fun t => scores.lookup t)
  | [] => rfl
  | t :: ts => by
    cases h : scores.lookup t <;>
      simp [List.filterMap_cons, List.filter_cons, h, filterMap_lookup_eq_filter scores ts]

theorem length_filterMap_lookup (scores : List (String × ℚ)) :
    ∀ group : List String,
      (group.filterMap (fun t => scores.lookup t)).length =
        (group.filter (fun t => (scores.lookup t).isSome)).length
  | [] => rfl
  | t :: ts => by
    cases h : scores.lookup t <;>
      simp [List.filterMap_cons, List.filter_cons, h, length_filterMap_lookup scores ts]

theorem averageThemes_eq_spec (scores : List (String × ℚ)) (group : List String) :
    averageThemes scores group = specGroupScore scores group := by
  unfold averageThemes specGroupScore
  cases group with
  | nil => simp
  | cons t ts =>
    simp only [List.length_cons, Nat.succ_ne_zero, if_false]
    rw [length_filterMap_lookup scores (t :: ts), filterMap_lookup_eq_filter scores (t :: ts)]

theorem mem_dedupFirstAux (x : String) :
    ∀ (l : List String) (seen : List String),
      x ∈ dedupFirstAux seen l ↔ x ∈ l ∧ x ∉ seen
  | [], seen => by simp [dedupFirstAux]
  | y :: ys, seen => by
    rw [dedupFirstAux]
    split
    · rename_i hy
      rw [mem_dedupFirstAux x ys seen]
      constructor
      · rintro ⟨h1, h2⟩; exact ⟨List.mem_cons_of_mem y h1, h2⟩
      · rintro ⟨h1, h2⟩
        rcases List.mem_cons.1 h1 with rfl | h1'
        · exact absurd hy h2
        · exact ⟨h1', h2⟩
    · rename_i hy
      rw [List.mem_cons, mem_dedupFirstAux x ys (y :: seen)]
      constructor
      · rintro (rfl | ⟨h1, h2⟩)
        · exact ⟨List.mem_cons_self x ys, fun hx => hy hx⟩
        · refine ⟨List.mem_cons_of_mem y h1, fun hx => h2 (List.mem_cons_of_mem y hx)⟩
      · rintro ⟨h1, h2⟩
        by_cases hxy : x = y
        · exact Or.inl hxy
        · rcases List.mem_cons.1 h1 with rfl | h1'
          · exact absurd rfl hxy
          · refine Or.inr ⟨h1', fun hx => ?_⟩
            rcases List.mem_cons.1 hx with h | hx'
            · exact hxy h
            · exact h2 hx'

theorem mem_dedupFirst (x : String) (l : List String) :
    x ∈ dedupFirst l ↔ x ∈ l := by
  rw [dedupFirst, mem_dedupFirstAux]; simp

theorem nodup_dedupFirstAux :
    ∀ (l : List String) (seen : List String), (dedupFirstAux seen l).Nodup
  | [], _ => List.nodup_nil
  | y :: ys, seen => by
    rw [dedupFirstAux]
    split
    · exact nodup_dedupFirstAux ys seen
    · refine List.nodup_cons.2 ⟨?_, nodup_dedupFirstAux ys (y :: seen)⟩
      intro hy
      exact ((mem_dedupFirstAux y ys (y :: seen)).1 hy).2 (List.mem_cons_self y seen)


theorem scoredTrends_length (sqrtF : ℚ → ℚ) (latest : Snapshot)
    (latestItems previousItems : List ChartItem) (cfg : TrendConfig) (themes : ThemeConfig) :
    (scoredTrends sqrtF latest latestItems previousItems cfg themes).length =
      latestItems.length := by
  simp [scoredTrends, preTrends]

theorem mem_scoredTrends_theme (sqrtF : ℚ → ℚ) (latest : Snapshot)
    (latestItems previousItems : List ChartItem) (cfg : TrendConfig) (themes : ThemeConfig) :
    ∀ t ∈ scoredTrends sqrtF latest latestItems previousItems cfg themes,
      ∃ item ∈ latestItems, t.Theme = Classify (NewThemeClassifier themes)
        { Name := item.AppName, Genres := item.Genres, GenreIDs := item.GenreIDs,
          PrimaryGenre := item.PrimaryGenre, ItunesGenres := item.ItunesGenres } := by
  intro t ht
  simp only [scoredTrends, preTrends, List.map_map, List.mem_map] at ht
  obtain ⟨item, hitem, rfl⟩ := ht
  exact ⟨item, hitem, rfl⟩

theorem trends_theme_shape (sqrtF : ℚ → ℚ) (latest previous : Snapshot)
    (latestItems previousItems : List ChartItem) (cfg : TrendConfig) (themes : ThemeConfig) :
    ∀ t ∈ (AnalyzeTrends sqrtF latest previous latestItems previousItems cfg themes).Trends,
      t.Theme = "other" ∨ ∃ r ∈ themes.Rules, t.Theme = toLowerStr r.Theme := by
  intro t ht
  have hmem : t ∈ scoredTrends sqrtF latest latestItems previousItems cfg themes :=
    (exchSort_perm (gtBy AppTrend.TrendScore) _).mem_iff.1 ht
  obtain ⟨item, -, heq⟩ := mem_scoredTrends_theme sqrtF latest latestItems previousItems
    cfg themes t hmem
  rw [heq]
  exact classify_shape themes _

/-- C2: theme classification is deterministic and first-match-wins in rule
order: `Classify` returns the (case-folded) theme of the earliest configured
rule matched by the item — `ruleMatches` spelling out the genre-ID / genre
substring / name-keyword predicates — and the literal `"other"` when no rule
matches; `List.find?` makes "the earlier rule always wins" explicit. -/
theorem classify_first_match_wins (cfg : ThemeConfig) (input : ThemeInput) :
    Classify (NewThemeClassifier cfg) input =
      ((cfg.Rules.find? (fun r => ruleMatches r input)).map
        (fun r => toLowerStr r.Theme)).getD "other" := by
  show classifyRules _ _ _ (cfg.Rules.map normalizeRule) = _
  rw [classifyRules_eq_find, List.find?_map, Option.map_map]
  rfl

/-- C9: the trend list of `AnalyzeTrends` is a permutation of the per-item
records built from the current item list (hence exactly one record per
current item) and is sorted by trend score in non-increasing order. -/
theorem analyze_trends_sorted_permutation (sqrtF : ℚ → ℚ) (latest previous : Snapshot)
    (latestItems previousItems : List ChartItem) (cfg : TrendConfig) (themes : ThemeConfig) :
    ((AnalyzeTrends sqrtF latest previous latestItems previousItems cfg themes).Trends).Perm
      (scoredTrends sqrtF latest latestItems previousItems cfg themes) ∧
    (AnalyzeTrends sqrtF latest previous latestItems previousItems cfg themes).Trends.length =
      latestItems.length ∧
    List.Sorted (fun a b => b.TrendScore ≤ a.TrendScore)
      (AnalyzeTrends sqrtF latest previous latestItems previousItems cfg themes).Trends := by
  refine ⟨exchSort_perm (gtBy AppTrend.TrendScore) _, ?_, ?_⟩
  · exact ((exchSort_perm (gtBy AppTrend.TrendScore) _).length_eq).trans
      (scoredTrends_length sqrtF latest latestItems previousItems cfg themes)
  · exact exchSort_sorted AppTrend.TrendScore _

/-- C6: for every computed `TrendResult` the rotation index equals the
risk-on score minus the risk-off score, and each group score is the
arithmetic mean over exactly the configured group themes present as keys of
the theme-score map (`specGroupScore`), with empty or fully-absent groups
scoring 0. -/
theorem rotation_index_consistency (sqrtF : ℚ → ℚ) (latest previous : Snapshot)
    (latestItems previousItems : List ChartItem) (cfg : TrendConfig) (themes : ThemeConfig) :
    (AnalyzeTrends sqrtF latest previous latestItems previousItems cfg themes).RotationIndex =
      (AnalyzeTrends sqrtF latest previous latestItems previousItems cfg themes).RiskOnScore -
      (AnalyzeTrends sqrtF latest previous latestItems previousItems cfg themes).RiskOffScore ∧
    (AnalyzeTrends sqrtF latest previous latestItems previousItems cfg themes).RiskOnScore =
      specGroupScore
        (AnalyzeTrends sqrtF latest previous latestItems previousItems cfg themes).ThemeScores
        themes.RiskOn ∧
    (AnalyzeTrends sqrtF latest previous latestItems previousItems cfg themes).RiskOffScore =
      specGroupScore
        (AnalyzeTrends sqrtF latest previous latestItems previousItems cfg themes).ThemeScores
        themes.RiskOff ∧
    ∀ scores : List (String × ℚ), specGroupScore scores [] = 0 := by
  refine ⟨rfl, averageThemes_eq_spec _ _, averageThemes_eq_spec _ _, ?_⟩
  intro scores
  simp [specGroupScore]

/-- C10: every theme label in a `TrendResult` — each `AppTrend.Theme` and
each key of the theme-score map — is either the literal `"other"` or the
lower-cased form of a configured rule theme, and never contains an ASCII
upper-case letter (so a configured theme containing upper case is never
returned verbatim). -/
theorem trend_themes_lowercased (sqrtF : ℚ → ℚ) (latest previous : Snapshot)
    (latestItems previousItems : List ChartItem) (cfg : TrendConfig) (themes : ThemeConfig) :
    (∀ t ∈ (AnalyzeTrends sqrtF latest previous latestItems previousItems cfg themes).Trends,
      (t.Theme = "other" ∨ ∃ r ∈ themes.Rules, t.Theme = toLowerStr r.Theme) ∧
      ∀ c ∈ t.Theme.data, ¬('A' ≤ c ∧ c ≤ 'Z')) ∧
    (∀ p ∈ (AnalyzeTrends sqrtF latest previous latestItems previousItems cfg themes).ThemeScores,
      (p.1 = "other" ∨ ∃ r ∈ themes.Rules, p.1 = toLowerStr r.Theme) ∧
      ∀ c ∈ p.1.data, ¬('A' ≤ c ∧ c ≤ 'Z')) := by
  have hshape := trends_theme_shape sqrtF latest previous latestItems previousItems cfg themes
  have hupper : ∀ s : String,
      (s = "other" ∨ ∃ r ∈ themes.Rules, s = toLowerStr r.Theme) →
      ∀ c ∈ s.data, ¬('A' ≤ c ∧ c ≤ 'Z') := by
    rintro s (rfl | ⟨r, -, rfl⟩)
    · decide
    · exact toLowerStr_not_upper r.Theme
  constructor
  · intro t ht
    exact ⟨hshape t ht, hupper t.Theme (hshape t ht)⟩
  · intro p hp
    have hkey : p.1 ∈ (AnalyzeTrends sqrtF latest previous latestItems previousItems
        cfg themes).Trends.map AppTrend.Theme := by
      have : p.1 ∈ dedupFirst ((AnalyzeTrends sqrtF latest previous latestItems previousItems
          cfg themes).Trends.map AppTrend.Theme) := by
        simp only [AnalyzeTrends, themeScoresOf, List.mem_map] at hp ⊢
        obtain ⟨th, hth, rfl⟩ := hp
        exact hth
      exact (mem_dedupFirst _ _).1 this
    obtain ⟨t, ht, heq⟩ := List.mem_map.1 hkey
    have h1 := hshape t ht
    rw [← heq]
    exact ⟨h1, hupper t.Theme h1⟩


theorem scoreTrend_rankDelta (cfg : TrendConfig) (a b c d : ℚ) (u : AppTrend) :
    (scoreTrend cfg a b c d u).RankDelta = u.RankDelta := rfl

theorem scoreTrend_ratingDelta (cfg : TrendConfig) (a b c d : ℚ) (u : AppTrend) :
    (scoreTrend cfg a b c d u).RatingDelta = u.RatingDelta := rfl

theorem scoreTrend_newEntry (cfg : TrendConfig) (a b c d : ℚ) (u : AppTrend) :
    (scoreTrend cfg a b c d u).NewEntry = u.NewEntry := rfl

theorem scoreTrend_score_of_newEntry (cfg : TrendConfig) (a b c d : ℚ) (u : AppTrend)
    (h : u.NewEntry = true) :
    (scoreTrend cfg a b c d u).TrendScore =
      cfg.RankWeight * zscore (u.RankDelta : ℚ) a b +
        cfg.ReviewWeight * zscore (u.RatingDelta : ℚ) c d +
        cfg.NewEntryBonus := by
  simp [scoreTrend, h]

theorem prevLookup_self (items : List ChartItem)
    (hn : (items.map ChartItem.AppID).Nodup) (a : ChartItem) (ha : a ∈ items) :
    prevLookup items a.AppID = some a := by
  unfold prevLookup
  cases hfind : items.reverse.find? (fun item => item.AppID == a.AppID) with
  | none =>
    exfalso
    rw [List.find?_eq_none] at hfind
    exact (by simpa using hfind a (List.mem_reverse.2 ha))
  | some y =>
    have hy_mem : y ∈ items := List.mem_reverse.1 (List.mem_of_find?_eq_some hfind)
    have hy_eq : y.AppID = a.AppID := by simpa using List.find?_some hfind
    have : y = a := List.inj_on_of_nodup_map hn hy_mem ha hy_eq
    rw [this]

theorem buildTrend_self (latest : Snapshot) (previousItems : List ChartItem)
    (cls : ThemeClassifier) (item : ChartItem)
    (hself : prevLookup previousItems item.AppID = some item) :
    (buildTrend latest previousItems cls item).RankDelta = 0 ∧
    (buildTrend latest previousItems cls item).RatingDelta = 0 ∧
    (buildTrend latest previousItems cls item).NewEntry = false := by
  cases hv : item.RatingCount.Valid <;>
    simp [buildTrend, hself, computeRatingDelta, hv]

theorem meanStd_all_zero (sqrtF : ℚ → ℚ) (h0 : sqrtF 0 = 0) (values : List ℚ)
    (hz : ∀ v ∈ values, v = 0) : meanStd sqrtF values = (0, 0) := by
  unfold meanStd
  split
  · rfl
  · have hsum : values.sum = 0 := List.sum_eq_zero hz
    have hmap : (values.map (fun v =>
        (v - values.sum / values.length) * (v - values.sum / values.length))).sum = 0 := by
      apply List.sum_eq_zero
      intro x hx
      obtain ⟨v, hv, rfl⟩ := List.mem_map.1 hx
      rw [hz v hv, hsum]
      simp
    show (values.sum / (values.length : ℚ),
      sqrtF ((values.map (fun v =>
        (v - values.sum / values.length) * (v - values.sum / values.length))).sum /
          (values.length : ℚ))) = (0, 0)
    rw [hmap, hsum]
    simp [h0]

/-- C4: the first retained day of a time series is compared against itself,
and on such a self-transition every produced trend record (item identifiers
being unique within the snapshot) has rank delta 0, rating delta 0, no
new-entry flag, and trend score exactly 0. -/
theorem first_day_self_transition (sqrtF : ℚ → ℚ) (h0 : sqrtF 0 = 0)
    (cfg : TrendConfig) (themes : ThemeConfig) (s : Snapshot) (items : List ChartItem)
    (rest : List (Snapshot × List ChartItem))
    (hnodup : (items.map ChartItem.AppID).Nodup) :
    (dayResults sqrtF cfg themes ((s, items) :: rest)).head? =
      some (AnalyzeTrends sqrtF s s items items cfg themes) ∧
    ∀ t ∈ (AnalyzeTrends sqrtF s s items items cfg themes).Trends,
      t.RankDelta = 0 ∧ t.RatingDelta = 0 ∧ t.NewEntry = false ∧ t.TrendScore = 0 := by
  constructor
  · rfl
  · intro t ht
    have hmem : t ∈ scoredTrends sqrtF s items items cfg themes :=
      (exchSort_perm (gtBy AppTrend.TrendScore) _).mem_iff.1 ht
    have hpre : ∀ u ∈ preTrends s items items themes,
        u.RankDelta = 0 ∧ u.RatingDelta = 0 ∧ u.NewEntry = false := by
      intro u hu
      obtain ⟨item, hitem, rfl⟩ := List.mem_map.1 hu
      exact buildTrend_self s items _ item (prevLookup_self items hnodup item hitem)
    have hrank : rankStats sqrtF s items items themes = (0, 0) := by
      apply meanStd_all_zero sqrtF h0
      intro v hv
      obtain ⟨u, hu, rfl⟩ := List.mem_map.1 hv
      rw [(hpre u hu).1]
      simp
    have hreview : reviewStats sqrtF s items items themes = (0, 0) := by
      apply meanStd_all_zero sqrtF h0
      intro v hv
      obtain ⟨u, hu, rfl⟩ := List.mem_map.1 hv
      rw [(hpre u hu).2.1]
      simp
    simp only [scoredTrends, List.mem_map] at hmem
    obtain ⟨u, hu, rfl⟩ := hmem
    obtain ⟨h1, h2, h3⟩ := hpre u hu
    refine ⟨h1, h2, h3, ?_⟩
    simp [scoreTrend, hrank, hreview, zscore, h3]


theorem first_day_self_transition_witness :
    (dayResults (fun q => q) sampleConfig defaultThemeConfig
        [(sampleSnapshot, [sampleItemA, sampleItemB])]).head? =
      some (AnalyzeTrends (fun q => q) sampleSnapshot sampleSnapshot
        [sampleItemA, sampleItemB] [sampleItemA, sampleItemB] sampleConfig
        defaultThemeConfig) :=
  (first_day_self_transition (fun q => q) rfl sampleConfig defaultThemeConfig
    sampleSnapshot [sampleItemA, sampleItemB] [] (by decide)).1

/-- C5: a current item absent from the previous item list gets
`newEntry = true`, its rank delta computed against the current snapshot's
`limit + 1`, and the configured new-entry bonus added on top of its weighted
z-score trend score; its record appears in the `AnalyzeTrends` output. -/
theorem new_entry_treatment (sqrtF : ℚ → ℚ) (latest previous : Snapshot)
    (latestItems previousItems : List ChartItem) (cfg : TrendConfig)
    (themes : ThemeConfig) (i : Nat) (hi : i < latestItems.length)
    (habs : (latestItems.get ⟨i, hi⟩).AppID ∉ previousItems.map ChartItem.AppID) :
    ∀ hi2 : i < (scoredTrends sqrtF latest latestItems previousItems cfg themes).length,
      ((scoredTrends sqrtF latest latestItems previousItems cfg themes).get
          ⟨i, hi2⟩).NewEntry = true ∧
      ((scoredTrends sqrtF latest latestItems previousItems cfg themes).get
          ⟨i, hi2⟩).RankDelta =
        (latest.Limit + 1) - (latestItems.get ⟨i, hi⟩).Rank ∧
      ((scoredTrends sqrtF latest latestItems previousItems cfg themes).get
          ⟨i, hi2⟩).TrendScore =
        cfg.RankWeight *
            zscore ((((scoredTrends sqrtF latest latestItems previousItems cfg
              themes).get ⟨i, hi2⟩).RankDelta : ℚ))
              (rankStats sqrtF latest latestItems previousItems themes).1
              (rankStats sqrtF latest latestItems previousItems themes).2 +
          cfg.ReviewWeight *
            zscore ((((scoredTrends sqrtF latest latestItems previousItems cfg
              themes).get ⟨i, hi2⟩).RatingDelta : ℚ))
              (reviewStats sqrtF latest latestItems previousItems themes).1
              (reviewStats sqrtF latest latestItems previousItems themes).2 +
          cfg.NewEntryBonus ∧
      (scoredTrends sqrtF latest latestItems previousItems cfg themes).get ⟨i, hi2⟩ ∈
        (AnalyzeTrends sqrtF latest previous latestItems previousItems cfg themes).Trends := by
  intro hi2
  have hnone : prevLookup previousItems (latestItems.get ⟨i, hi⟩).AppID = none := by
    unfold prevLookup
    rw [List.find?_eq_none]
    intro x hx
    simp only [beq_iff_eq]
    intro hbeq
    exact habs (hbeq ▸ List.mem_map_of_mem ChartItem.AppID (List.mem_reverse.1 hx))
  have hipre : i < (preTrends latest latestItems previousItems themes).length := by
    simpa [preTrends] using hi
  have hget : (scoredTrends sqrtF latest latestItems previousItems cfg themes).get ⟨i, hi2⟩ =
      scoreTrend cfg
        (rankStats sqrtF latest latestItems previousItems themes).1
        (rankStats sqrtF latest latestItems previousItems themes).2
        (reviewStats sqrtF latest latestItems previousItems themes).1
        (reviewStats sqrtF latest latestItems previousItems themes).2
        (buildTrend latest previousItems (NewThemeClassifier themes)
          (latestItems.get ⟨i, hi⟩)) := by
    show (List.map _ (preTrends latest latestItems previousItems themes)).get ⟨i, hi2⟩ = _
    rw [List.get_map]
    congr 1
    show (List.map _ latestItems).get _ = _
    rw [List.get_map]
  rw [hget]
  have hnone' := hnone
  rw [List.get_eq_getElem] at hnone'
  have hbuild : (buildTrend latest previousItems (NewThemeClassifier themes)
      (latestItems.get ⟨i, hi⟩)).NewEntry = true := by
    simp [buildTrend, hnone, hnone']
  have hbuildRank : (buildTrend latest previousItems (NewThemeClassifier themes)
      (latestItems.get ⟨i, hi⟩)).RankDelta =
      (latest.Limit + 1) - (latestItems.get ⟨i, hi⟩).Rank := by
    simp [buildTrend, hnone, hnone']
  refine ⟨?_, ?_, ?_, ?_⟩
  · rw [scoreTrend_newEntry]; exact hbuild
  · rw [scoreTrend_rankDelta]; exact hbuildRank
  · rw [scoreTrend_score_of_newEntry cfg _ _ _ _ _ hbuild, scoreTrend_rankDelta,
      scoreTrend_ratingDelta]
  · rw [← hget]
    exact (exchSort_perm (gtBy AppTrend.TrendScore) _).symm.mem_iff.1
      (List.get_mem _ _ _)


theorem new_entry_treatment_witness :
    ((scoredTrends (fun q => q) sampleSnapshot [sampleItemA] [sampleItemB] sampleConfig
        defaultThemeConfig).get
      ⟨0, by rw [scoredTrends_length]; decide⟩).NewEntry = true :=
  (new_entry_treatment (fun q => q) sampleSnapshot sampleSnapshot [sampleItemA]
    [sampleItemB] sampleConfig defaultThemeConfig 0 (by decide) (by decide)
    (by rw [scoredTrends_length]; decide)).1

/-- C8: theme-configuration loading substitutes the built-in ten-rule
default when the file is absent and when a decoded configuration has an
empty rule list (so no loaded configuration ever has an empty rule list),
while stat failures other than absence, read failures, and decode failures
are propagated as errors. -/
theorem load_theme_config_fallback (e : String) (cfg : ThemeConfig) :
    LoadThemeConfig .absent = .ok defaultThemeConfig ∧
    (cfg.Rules = [] → LoadThemeConfig (.contents (.ok cfg)) = .ok defaultThemeConfig) ∧
    LoadThemeConfig (.statFailure e) = .error e ∧
    LoadThemeConfig (.readFailure e) = .error e ∧
    LoadThemeConfig (.contents (.error e)) = .error e ∧
    defaultThemeConfig.Rules.length = 10 ∧
    ∀ (fs : ThemeFileState) (out : ThemeConfig),
      LoadThemeConfig fs = .ok out → out.Rules ≠ [] := by
  refine ⟨rfl, ?_, rfl, rfl, rfl, rfl, ?_⟩
  · intro h
    simp [LoadThemeConfig, h]
  · intro fs out hout
    cases fs with
    | absent =>
      simp only [LoadThemeConfig, Except.ok.injEq] at hout
      rw [← hout]
      decide
    | statFailure e' => simp [LoadThemeConfig] at hout
    | readFailure e' => simp [LoadThemeConfig] at hout
    | contents decoded =>
      cases decoded with
      | error e' => simp [LoadThemeConfig] at hout
      | ok c =>
        by_cases hc : c.Rules.length = 0
        · simp only [LoadThemeConfig, if_pos hc, Except.ok.injEq] at hout
          rw [← hout]
          decide
        · simp only [LoadThemeConfig, if_neg hc, Except.ok.injEq] at hout
          rw [← hout]
          intro hnil
          exact hc (by rw [hnil]; rfl)

theorem load_theme_config_fallback_witness :
    LoadThemeConfig (.contents (.ok { Rules := [], RiskOn := [], RiskOff := [] })) =
      .ok defaultThemeConfig ∧
    LoadThemeConfig (.statFailure "permission denied") = .error "permission denied" :=
  ⟨(load_theme_config_fallback "permission denied" { Rules := [], RiskOn := [], RiskOff := [] }).2.1 rfl,
   (load_theme_config_fallback "permission denied" { Rules := [], RiskOn := [], RiskOff := [] }).2.2.1⟩


theorem dateIndexAux_append (k : Int) :
    ∀ (xs ys : List Int) (i : Nat) (acc : Option Nat),
      dateIndexAux k i (xs ++ ys) acc =
        dateIndexAux k (i + xs.length) ys (dateIndexAux k i xs acc)
  | [], ys, i, acc => by simp [dateIndexAux]
  | x :: xs, ys, i, acc => by
    show dateIndexAux k (i + 1) (xs ++ ys) (if x = k then some i else acc) = _
    rw [dateIndexAux_append k xs ys (i + 1) (if x = k then some i else acc)]
    have hlen : i + (x :: xs).length = (i + 1) + xs.length := by
      simp; omega
    rw [hlen]
    rfl

theorem dateIndexOf_snoc (keys : List Int) (x k : Int) :
    dateIndexOf (keys ++ [x]) k =
      if x = k then some keys.length else dateIndexOf keys k := by
  unfold dateIndexOf
  rw [dateIndexAux_append k keys [x] 0 none]
  show dateIndexAux k (0 + keys.length + 1) []
    (if x = k then some (0 + keys.length) else dateIndexAux k 0 keys none) = _
  rw [dateIndexAux]
  simp

theorem dateIndexOf_eq_some_of (keys : List Int) :
    ∀ (k : Int) (i : Nat), keys.get? i = some k →
      (∀ j, i < j → keys.get? j ≠ some k) → dateIndexOf keys k = some i := by
  induction keys using List.reverseRecOn with
  | nil => intro k i h; simp at h
  | append_singleton ys x ih =>
    intro k i hi hafter
    rw [dateIndexOf_snoc]
    by_cases hx : x = k
    · subst hx
      rcases lt_trichotomy i ys.length with hlt | heq | hgt
      · exact absurd (List.get?_concat_length ys x) (hafter ys.length hlt)
      · rw [if_pos rfl, heq]
      · exfalso
        rw [List.get?_append_right (le_of_lt hgt)] at hi
        have : i - ys.length ≠ 0 := by omega
        cases hd : i - ys.length with
        | zero => exact this hd
        | succ m => rw [hd] at hi; simp at hi
    · rw [if_neg hx]
      have hilt : i < ys.length := by
        rcases lt_or_ge i ys.length with h | h
        · exact h
        · exfalso
          rw [List.get?_append_right h] at hi
          cases hd : i - ys.length with
          | zero =>
            rw [hd] at hi
            simp only [List.get?] at hi
            exact hx (Option.some.inj hi)
          | succ m => rw [hd] at hi; simp at hi
      apply ih k i
      · rw [List.get?_append hilt] at hi
        exact hi
      · intro j hj hcontra
        have hjlt : j < ys.length := by
          by_contra hge
          rw [List.get?_eq_none.2 (le_of_not_lt hge)] at hcontra
          simp at hcontra
        exact hafter j hj (by rw [List.get?_append hjlt]; exact hcontra)

theorem dateIndexOf_last_occurrence (keys : List Int) :
    ∀ (k : Int) (i : Nat), dateIndexOf keys k = some i →
      keys.get? i = some k ∧ ∀ j, i < j → keys.get? j ≠ some k := by
  induction keys using List.reverseRecOn with
  | nil => intro k i h; simp [dateIndexOf, dateIndexAux] at h
  | append_singleton ys x ih =>
    intro k i h
    rw [dateIndexOf_snoc] at h
    by_cases hx : x = k
    · subst hx
      rw [if_pos rfl] at h
      have hieq : i = ys.length := (Option.some.inj h).symm
      subst hieq
      refine ⟨List.get?_concat_length ys x, ?_⟩
      intro j hj
      rw [List.get?_eq_none.2 (by simp; omega)]
      simp
    · rw [if_neg hx] at h
      obtain ⟨h1, h2⟩ := ih k i h
      have hilt : i < ys.length := (List.get?_eq_some.1 h1).fst
      refine ⟨by rw [List.get?_append hilt]; exact h1, ?_⟩
      intro j hj
      rcases lt_trichotomy j ys.length with hlt | heq | hgt
      · rw [List.get?_append hlt]
        exact h2 j hj
      · subst heq
        rw [List.get?_concat_length]
        intro hc
        exact hx (Option.some.inj hc)
      · rw [List.get?_eq_none.2 (by simp; omega)]
        simp


theorem groupAux_sublist (offset : Int) (keys : List Int) :
    ∀ (ps : List (Snapshot × List ChartItem)) (i : Nat),
      (groupAux offset keys i ps).Sublist ps
  | [], _ => List.nil_sublist []
  | p :: ps, i => by
    rw [groupAux]
    split
    · exact (groupAux_sublist offset keys ps (i + 1)).cons₂ p
    · exact (groupAux_sublist offset keys ps (i + 1)).cons p

theorem groupAux_cond_iff (offset : Int) (pairs : List (Snapshot × List ChartItem))
    (i : Nat) (p : Snapshot × List ChartItem)
    (hp : pairs.get? i = some p) :
    dateIndexOf (pairs.map (fun q => dayKey offset q.1)) (dayKey offset p.1) = some i ↔
      lastOfItsDay offset pairs i p := by
  have hk : (pairs.map (fun q => dayKey offset q.1)).get? i = some (dayKey offset p.1) := by
    rw [List.get?_map, hp]
    rfl
  constructor
  · intro h
    obtain ⟨-, hafter⟩ := dateIndexOf_last_occurrence _ _ _ h
    intro j hj hij heq
    apply hafter j hij
    rw [List.get?_map, List.get?_eq_get hj]
    show some (dayKey offset (pairs.get ⟨j, hj⟩).1) = some (dayKey offset p.1)
    rw [heq]
  · intro hlast
    apply dateIndexOf_eq_some_of _ _ _ hk
    intro j hij hcontra
    have hjlt : j < pairs.length := by
      by_contra hge
      rw [List.get?_eq_none.2 (by simpa using le_of_not_lt hge)] at hcontra
      simp at hcontra
    rw [List.get?_map, List.get?_eq_get hjlt] at hcontra
    exact hlast j hjlt hij (Option.some.inj hcontra)

theorem groupAux_eq_keepLastAux (offset : Int) (pairs : List (Snapshot × List ChartItem)) :
    ∀ (ps : List (Snapshot × List ChartItem)) (i : Nat),
      (∀ j, ps.get? j = pairs.get? (i + j)) →
      groupAux offset (pairs.map (fun q => dayKey offset q.1)) i ps =
        keepLastAux offset pairs i ps
  | [], _, _ => rfl
  | p :: ps, i, hinv => by
    have hp : pairs.get? i = some p := by
      have := hinv 0
      simpa using this.symm
    have hrec := groupAux_eq_keepLastAux offset pairs ps (i + 1) (fun j => by
      have := hinv (j + 1)
      simpa [Nat.add_assoc, Nat.add_comm 1 j] using this)
    rw [groupAux, keepLastAux]
    by_cases hcond : lastOfItsDay offset pairs i p
    · rw [if_pos ((groupAux_cond_iff offset pairs i p hp).2 hcond), if_pos hcond, hrec]
    · rw [if_neg (fun hc => hcond ((groupAux_cond_iff offset pairs i p hp).1 hc)),
        if_neg hcond, hrec]

theorem groupAux_nodup_id (offset : Int) (pairs : List (Snapshot × List ChartItem))
    (hnd : (pairs.map (fun q => dayKey offset q.1)).Nodup) :
    ∀ (ps : List (Snapshot × List ChartItem)) (i : Nat),
      (∀ j, ps.get? j = pairs.get? (i + j)) →
      groupAux offset (pairs.map (fun q => dayKey offset q.1)) i ps = ps
  | [], _, _ => rfl
  | p :: ps, i, hinv => by
    have hp : pairs.get? i = some p := by
      have := hinv 0
      simpa using this.symm
    have hk : (pairs.map (fun q => dayKey offset q.1)).get? i = some (dayKey offset p.1) := by
      rw [List.get?_map, hp]
      rfl
    have hilt : i < (pairs.map (fun q => dayKey offset q.1)).length :=
      (List.get?_eq_some.1 hk).fst
    have hcond : dateIndexOf (pairs.map (fun q => dayKey offset q.1))
        (dayKey offset p.1) = some i := by
      apply dateIndexOf_eq_some_of _ _ _ hk
      intro j hij hcontra
      exact absurd (List.get?_inj hilt hnd (hk.trans hcontra.symm)) (by omega)
    rw [groupAux, if_pos hcond]
    rw [groupAux_nodup_id offset pairs hnd ps (i + 1) (fun j => by
      have := hinv (j + 1)
      simpa [Nat.add_assoc, Nat.add_comm 1 j] using this)]

/-- C7: day bucketing keeps, for each calendar-day key, exactly the pair at
the greatest input index (`keepLastPerDay`), preserves the relative order of
the retained entries (the output is a sublist of the input), and returns an
already one-per-day input unchanged. -/
theorem day_bucketing_spec (offset : Int) (pairs : List (Snapshot × List ChartItem)) :
    groupSnapshotsByDate offset pairs = keepLastPerDay offset pairs ∧
    (groupSnapshotsByDate offset pairs).Sublist pairs ∧
    ((pairs.map (fun q => dayKey offset q.1)).Nodup →
      groupSnapshotsByDate offset pairs = pairs) := by
  refine ⟨?_, groupAux_sublist offset _ pairs 0, ?_⟩
  · exact groupAux_eq_keepLastAux offset pairs pairs 0 (fun j => by simp)
  · intro hnd
    exact groupAux_nodup_id offset pairs hnd pairs 0 (fun j => by simp)

theorem day_bucketing_spec_witness :
    groupSnapshotsByDate 32400 [(sampleSnapshot, [sampleItemA])] =
      [(sampleSnapshot, [sampleItemA])] :=
  (day_bucketing_spec 32400 [(sampleSnapshot, [sampleItemA])]).2.2 (by decide)


/-- C1 counterexample: with exactly one stored snapshot the time-series
entry point succeeds (producing the degenerate one-day payload) instead of
failing. -/
theorem single_snapshot_timeseries_succeeds :
    (computeTimeSeries 32400 (fun q => q) "kr" "top-free" [sampleSnapshot]
      [[sampleItemA]] (.ok defaultThemeConfig) sampleConfig 10).isOk = true := by
  rfl

/-- C1 (amended): the report path fails whenever fewer than two snapshots
exist; the time-series path fails exactly on an empty snapshot list (with
at least one snapshot and a loaded theme configuration it succeeds). -/
theorem insufficient_data_errors (sqrtF : ℚ → ℚ) (snaps : List Snapshot)
    (itemsOf : Int → List ChartItem) (themeLoad : Except String ThemeConfig)
    (cfg : TrendConfig) (offset : Int) (country chart : String)
    (snapshots : List Snapshot) (snapshotItems : List (List ChartItem))
    (tsTc : ThemeConfig) (topN : Int) :
    (snaps.length < 2 → (computeReport sqrtF snaps itemsOf themeLoad cfg).isOk = false) ∧
    (snapshots.length = 0 →
      computeTimeSeries offset sqrtF country chart snapshots snapshotItems themeLoad
        cfg topN = .error "no snapshots found") ∧
    (0 < snapshots.length →
      (computeTimeSeries offset sqrtF country chart snapshots snapshotItems (.ok tsTc)
        cfg topN).isOk = true) := by
  refine ⟨?_, ?_, ?_⟩
  · intro h
    match snaps with
    | [] => rfl
    | [s] =>
      simp only [computeReport, GetPreviousSnapshot, GetLatestSnapshot, errNoRows,
        List.filter, decide_eq_false (lt_irrefl s.CollectedAt), List.foldl]
      rfl
    | s1 :: s2 :: rest =>
      exfalso
      simp only [List.length_cons] at h
      omega
  · intro h
    simp [computeTimeSeries, h]
  · intro h
    have hne : ¬snapshots.length = 0 := by omega
    unfold computeTimeSeries
    rw [if_neg hne]
    rfl


theorem insufficient_data_errors_witness :
    (computeReport (fun q => q) [sampleSnapshot] (fun _ => []) (.ok defaultThemeConfig)
      sampleConfig).isOk = false ∧
    computeTimeSeries 32400 (fun q => q) "kr" "top-free" [] [] (.ok defaultThemeConfig)
      sampleConfig 10 = .error "no snapshots found" :=
  ⟨(insufficient_data_errors (fun q => q) [sampleSnapshot] (fun _ => [])
      (.ok defaultThemeConfig) sampleConfig 32400 "kr" "top-free" []
      [] defaultThemeConfig 10).1 (by decide),
   (insufficient_data_errors (fun q => q) [sampleSnapshot] (fun _ => [])
      (.ok defaultThemeConfig) sampleConfig 32400 "kr" "top-free" []
      [] defaultThemeConfig 10).2.1 rfl⟩


theorem lookup_map_pairing {β : Type} (g : String → β) (t : String) :
    ∀ l : List String,
      ((l.map (fun th => (th, g th))).lookup t) = if t ∈ l then some (g t) else none
  | [] => rfl
  | x :: xs => by
    by_cases h : t = x
    · subst h
      simp [List.lookup]
    · have hbeq : (t == x) = false := beq_eq_false_iff_ne.2 h
      simp only [List.map_cons, List.lookup, hbeq, lookup_map_pairing g t xs,
        List.mem_cons]
      split
      · rename_i hm
        rw [if_pos (Or.inr hm)]
      · rename_i hm
        rw [if_neg (fun hc => by
          rcases hc with hc | hc
          · exact h hc
          · exact hm hc)]

theorem lookup_themeScoresOf (trends : List AppTrend) (t : String) :
    (themeScoresOf trends).lookup t =
      if t ∈ trends.map (fun tr => tr.Theme) then some (themeMean trends t) else none := by
  unfold themeScoresOf
  rw [lookup_map_pairing (themeMean trends) t (dedupFirst (trends.map (fun tr => tr.Theme)))]
  rw [if_congr (mem_dedupFirst t (trends.map (fun tr => tr.Theme))) rfl rfl]

theorem uniqueThemes_sorted (cfg : ThemeConfig) :
    List.Sorted (fun a b : String => a ≤ b) (uniqueThemes cfg) := by
  unfold uniqueThemes
  exact List.sorted_insertionSort _ _

theorem mem_uniqueThemes (cfg : ThemeConfig) (t : String) :
    t ∈ uniqueThemes cfg ↔ (t = "other" ∨ ∃ r ∈ cfg.Rules, r.Theme = t ∧ t ≠ "") := by
  unfold uniqueThemes
  rw [(List.perm_insertionSort _ _).mem_iff, mem_dedupFirst, List.mem_cons]
  simp only [List.mem_filter, List.mem_map, decide_eq_true_eq]
  constructor
  · rintro (rfl | ⟨⟨r, hr, rfl⟩, hne⟩)
    · exact Or.inl rfl
    · exact Or.inr ⟨r, hr, rfl, hne⟩
  · rintro (rfl | ⟨r, hr, rfl, hne⟩)
    · exact Or.inl rfl
    · exact Or.inr ⟨⟨r, hr, rfl⟩, hne⟩

theorem themeSeries_keys (themeNames : List String) (results : List TrendResult) :
    (themeSeries themeNames results).map Prod.fst = themeNames := by
  unfold themeSeries
  rw [List.map_map]
  exact List.map_id themeNames

theorem mem_dayResults_themeScores (sqrtF : ℚ → ℚ) (cfg : TrendConfig)
    (themes : ThemeConfig) (gs : List (Snapshot × List ChartItem)) (r : TrendResult)
    (hr : r ∈ dayResults sqrtF cfg themes gs) :
    r.ThemeScores = themeScoresOf r.Trends := by
  simp only [dayResults, List.mem_map] at hr
  obtain ⟨pr, -, rfl⟩ := hr
  rfl


/-- C3 counterexample: a configured rule with the empty string as theme name
is dropped from the payload's theme-score key set, so that key set is not
the union of all configured theme names with `"other"`. -/
theorem empty_theme_name_dropped :
    (computeTimeSeries 32400 (fun q => q) "kr" "top-free" [sampleSnapshot] [[sampleItemA]]
        (.ok { Rules := [{ Theme := "", GenreIDs := [], Genres := [], Keywords := [] }],
               RiskOn := [], RiskOff := [] }) sampleConfig 10).map
      (fun p => p.ThemeScores.map Prod.fst) = .ok ["other"] ∧
    "" ∈ (([{ Theme := "", GenreIDs := [], Genres := [], Keywords := [] }] :
      List ThemeRule).map (fun r => r.Theme)) := by
  constructor
  · rfl
  · decide

/-- C3 (amended): the time-series payload's theme-score map has exactly the
key set consisting of the configured rules' non-empty theme names together
with the literal `"other"`, globally sorted; and for every known theme name
and every retained day, the series value is the mean trend score that theme
received in that day's `TrendResult`, with 0 filled for a day in which the
theme had no scored items. -/
theorem timeseries_theme_series_spec (offset : Int) (sqrtF : ℚ → ℚ)
    (country chart : String) (snapshots : List Snapshot)
    (snapshotItems : List (List ChartItem)) (tc : ThemeConfig) (cfg : TrendConfig)
    (topN : Int) (payload : timeSeriesPayload)
    (hok : computeTimeSeries offset sqrtF country chart snapshots snapshotItems (.ok tc)
      cfg topN = .ok payload) :
    payload.ThemeScores.map Prod.fst = uniqueThemes tc ∧
    List.Sorted (fun a b : String => a ≤ b) (uniqueThemes tc) ∧
    (∀ t : String, t ∈ uniqueThemes tc ↔
      (t = "other" ∨ ∃ r ∈ tc.Rules, r.Theme = t ∧ t ≠ "")) ∧
    ∀ t ∈ uniqueThemes tc,
      payload.ThemeScores.lookup t =
        some ((dayResults sqrtF cfg tc
            (groupSnapshotsByDate offset (snapshots.zip snapshotItems))).map
          (fun r => if t ∈ r.Trends.map (fun tr => tr.Theme)
            then themeMean r.Trends t else 0)) := by
  by_cases hz : snapshots.length = 0
  · exfalso
    unfold computeTimeSeries at hok
    rw [if_pos hz] at hok
    exact Except.noConfusion hok
  · unfold computeTimeSeries at hok
    rw [if_neg hz] at hok
    have hpayload : payload =
        { Country := country
          Chart := chart
          Limit := ((groupSnapshotsByDate offset (snapshots.zip snapshotItems)).getLast?.map
            (fun p => p.1.Limit)).getD 0
          Dates := (groupSnapshotsByDate offset (snapshots.zip snapshotItems)).map
            (fun p => p.1.CollectedAt)
          RotationIndex := (dayResults sqrtF cfg tc
            (groupSnapshotsByDate offset (snapshots.zip snapshotItems))).map
            (fun r => r.RotationIndex)
          RiskOnScore := (dayResults sqrtF cfg tc
            (groupSnapshotsByDate offset (snapshots.zip snapshotItems))).map
            (fun r => r.RiskOnScore)
          RiskOffScore := (dayResults sqrtF cfg tc
            (groupSnapshotsByDate offset (snapshots.zip snapshotItems))).map
            (fun r => r.RiskOffScore)
          ThemeScores := themeSeries (uniqueThemes tc) (dayResults sqrtF cfg tc
            (groupSnapshotsByDate offset (snapshots.zip snapshotItems)))
          TopApps := buildTopApps ((groupSnapshotsByDate offset
            (snapshots.zip snapshotItems)).map (fun p => p.2)) topN } := by
      cases hok
      rfl
    subst hpayload
    refine ⟨themeSeries_keys _ _, uniqueThemes_sorted tc, mem_uniqueThemes tc, ?_⟩
    intro t ht
    unfold themeSeries
    rw [lookup_map_pairing, if_pos ht]
    congr 1
    apply List.map_congr_left
    intro r hr
    rw [mem_dayResults_themeScores sqrtF cfg tc _ r hr, lookup_themeScoresOf]
    split
    · rfl
    · rfl

theorem timeseries_theme_series_spec_witness :
    (computeTimeSeries 32400 (fun q => q) "kr" "top-free" [sampleSnapshot] [[sampleItemA]]
        (.ok defaultThemeConfig) sampleConfig 10).map
      (fun p => p.ThemeScores.map Prod.fst) = .ok (uniqueThemes defaultThemeConfig) := by
  have h := timeseries_theme_series_spec 32400 (fun q => q) "kr" "top-free" [sampleSnapshot]
    [[sampleItemA]] defaultThemeConfig sampleConfig 10
    ((computeTimeSeries 32400 (fun q => q) "kr" "top-free" [sampleSnapshot] [[sampleItemA]]
      (.ok defaultThemeConfig) sampleConfig 10).toOption.getD {}) (by rfl)
  rw [show (computeTimeSeries 32400 (fun q => q) "kr" "top-free" [sampleSnapshot]
      [[sampleItemA]] (.ok defaultThemeConfig) sampleConfig 10) =
    .ok ((computeTimeSeries 32400 (fun q => q) "kr" "top-free" [sampleSnapshot]
      [[sampleItemA]] (.ok defaultThemeConfig) sampleConfig 10).toOption.getD {}) from rfl]
  rw [Except.map]
  rw [h.1]

end AppAnalyzer
